import Mathlib

/-!
Verification development for `scripts/deploy/deploy_tui.py`
(EntreNovaAI/azure-nextjs-azuredb-sendgrid-stack).

The file shallowly embeds the core of `DeploymentTUI.run_validation`:
exit-code classification, the dual-stream line reader (`read_stream`),
the environment builder with its Windows PATH augmentation loop, and the
`stdbuf` wrapping of the command on non-Windows platforms.  Pure Python
fragments become Lean functions; the interactions with the operating
system (file existence, the `which` probe, the launch outcome) become
explicit parameters so each code path is a value the theorems can
inspect.
-/

namespace DeployTui

/-! Section: exit-code classification (deploy_tui.py lines 267-279)

Modelled from the spec: the `constants` package is not under `src/`, so
the numeric values of `EXIT_CODE_SUCCESS` and `EXIT_CODE_WARNINGS` are
taken from the spec's exit-code contract (0 = success, 1 = warnings),
and the three `MSG_VALIDATION_*` message constants are abstracted into a
status type whose failure case carries the numeric exit code, matching
`MSG_VALIDATION_FAILED.format(return_code)`. -/

/-- Exit code of a successful validation run.  Modelled from the spec:
"exit code 0 → success" (the `constants` module is not under `src/`). -/
def EXIT_CODE_SUCCESS : Int := 0

/-- Exit code of a validation run that completed with warnings.
Modelled from the spec: "exit code 1 → warning". -/
def EXIT_CODE_WARNINGS : Int := 1

/-- The status message written after the child process terminates.
Modelled from the spec: `success` stands for `MSG_VALIDATION_SUCCESS`,
`warnings` for `MSG_VALIDATION_WARNINGS`, and `failed code` for
`MSG_VALIDATION_FAILED.format(return_code)` — the failure message
carries the numeric exit code. -/
inductive StatusMsg where
  | success
  | warnings
  | failed (code : Int)
deriving DecidableEq, Repr

/-- The `if return_code == EXIT_CODE_SUCCESS ... elif ... else` chain of
`run_validation` (deploy_tui.py lines 273-278). -/
def classify (return_code : Int) : StatusMsg :=
  if return_code = EXIT_CODE_SUCCESS then StatusMsg.success
  else if return_code = EXIT_CODE_WARNINGS then StatusMsg.warnings
  else StatusMsg.failed return_code

/-! Section: text decoding (deploy_tui.py lines 244-253)

`read_stream` decodes each raw line with
`line_bytes.decode(SUBPROCESS_ENCODING)` and, on `UnicodeDecodeError`,
re-decodes with `errors=SUBPROCESS_ERROR_HANDLING`.  Modelled from the
spec: the `constants` module is not under `src/`; the spec fixes the
configured encoding as UTF-8 ("forcing UTF-8 text decoding") and the
error handling as substituting a replacement marker for invalid bytes.
The decoder below mirrors Python's UTF-8 codec: `utf8DecodeTokens`
splits a byte sequence into decoded characters and error markers
(strict decoding fails exactly when an error marker is produced;
replacement decoding turns each error marker into U+FFFD).  The grouping
of consecutive invalid bytes into markers is simplified to one marker
per offending byte, which does not affect any property proved here. -/

/-- A raw line as delivered by `stream.readline()`: a list of bytes. -/
abbrev ByteLine : Type := List Nat

/-- The Unicode replacement character U+FFFD substituted for invalid
bytes by `errors="replace"` decoding. -/
def replacementChar : Char := Char.ofNat 0xFFFD

/-- Is `b` a UTF-8 continuation byte (`0x80 ≤ b < 0xC0`)? -/
def isCont (b : Nat) : Bool := 0x80 ≤ b && b < 0xC0

/-- Worker for `utf8DecodeTokens`.  The fuel argument only serves
structural recursion: every step consumes at least one byte, so fuel
equal to the byte count (as supplied by `utf8DecodeTokens`) is never
exhausted. -/
def utf8DecodeGo : Nat → List Nat → List (Sum Char Unit)
  | _, [] => []
  | 0, _ :: _ => [Sum.inr ()]
  | fuel + 1, b :: rest =>
    if b < 0x80 then Sum.inl (Char.ofNat b) :: utf8DecodeGo fuel rest
    else if b < 0xC2 then Sum.inr () :: utf8DecodeGo fuel rest
    else if b < 0xE0 then
      match rest with
      | [] => [Sum.inr ()]
      | b2 :: rest2 =>
        if isCont b2 then
          Sum.inl (Char.ofNat ((b - 0xC0) * 0x40 + (b2 - 0x80))) ::
            utf8DecodeGo fuel rest2
        else Sum.inr () :: utf8DecodeGo fuel rest
    else if b < 0xF0 then
      match rest with
      | [] => [Sum.inr ()]
      | b2 :: rest2 =>
        if isCont b2 && (decide (b ≠ 0xE0) || decide (0xA0 ≤ b2))
            && (decide (b ≠ 0xED) || decide (b2 < 0xA0)) then
          match rest2 with
          | [] => [Sum.inr ()]
          | b3 :: rest3 =>
            if isCont b3 then
              Sum.inl (Char.ofNat
                ((b - 0xE0) * 0x1000 + (b2 - 0x80) * 0x40 + (b3 - 0x80))) ::
                utf8DecodeGo fuel rest3
            else Sum.inr () :: utf8DecodeGo fuel rest2
        else Sum.inr () :: utf8DecodeGo fuel rest
    else if b < 0xF5 then
      match rest with
      | [] => [Sum.inr ()]
      | b2 :: rest2 =>
        if isCont b2 && (decide (b ≠ 0xF0) || decide (0x90 ≤ b2))
            && (decide (b ≠ 0xF4) || decide (b2 < 0x90)) then
          match rest2 with
          | [] => [Sum.inr ()]
          | b3 :: rest3 =>
            if isCont b3 then
              match rest3 with
              | [] => [Sum.inr ()]
              | b4 :: rest4 =>
                if isCont b4 then
                  Sum.inl (Char.ofNat
                    ((b - 0xF0) * 0x40000 + (b2 - 0x80) * 0x1000 +
                     (b3 - 0x80) * 0x40 + (b4 - 0x80))) ::
                    utf8DecodeGo fuel rest4
                else Sum.inr () :: utf8DecodeGo fuel rest3
            else Sum.inr () :: utf8DecodeGo fuel rest2
        else Sum.inr () :: utf8DecodeGo fuel rest
    else Sum.inr () :: utf8DecodeGo fuel rest

/-- Tokenise a byte sequence UTF-8-wise: `Sum.inl c` is a correctly
decoded character, `Sum.inr ()` marks a decoding error (invalid lead
byte, truncated or ill-formed sequence, overlong form, surrogate, or
out-of-range code point). -/
def utf8DecodeTokens (l : List Nat) : List (Sum Char Unit) :=
  utf8DecodeGo l.length l

/-- Strict decoding `bytes.decode("utf-8")`: `none` models a raised
`UnicodeDecodeError` (strict decoding fails iff some token is an error
marker). -/
def utf8DecodeStrict (l : List Nat) : Option String :=
  if (utf8DecodeTokens l).any (fun t => match t with
      | Sum.inl _ => false
      | Sum.inr _ => true) then
    none
  else
    some (String.mk ((utf8DecodeTokens l).map (fun t => match t with
      | Sum.inl c => c
      | Sum.inr _ => replacementChar)))

/-- Replacement decoding `bytes.decode("utf-8", errors="replace")`: total, each error marker
becomes the replacement character. -/
def utf8DecodeReplace (l : List Nat) : String :=
  String.mk ((utf8DecodeTokens l).map (fun t => match t with
    | Sum.inl c => c
    | Sum.inr _ => replacementChar))

/-- The `try: line_bytes.decode(...) except UnicodeDecodeError:
line_bytes.decode(..., errors=...)` block of `read_stream`
(deploy_tui.py lines 245-253): strict decoding, falling back to
replacement decoding when strict decoding raises. -/
def decodeLine (b : ByteLine) : String :=
  match utf8DecodeStrict b with
  | some s => s
  | none => utf8DecodeReplace b

/-! Section: line stripping, filtering and prefixing (deploy_tui.py 236-257) -/

/-- Python's `str.rstrip("\n\r")` on a character list: drop every
trailing character that is `'\n'` or `'\r'`. -/
def rstripNRList (l : List Char) : List Char :=
  (l.reverse.dropWhile (fun c => c == '\n' || c == '\r')).reverse

/-- Python's `str.rstrip("\n\r")`: strip all trailing newline and
carriage-return characters. -/
def rstripNR (s : String) : String := String.mk (rstripNRList s.data)

/-- The stderr prefix passed to `read_stream` for the stderr stream
(deploy_tui.py line 264). -/
def STDERR_PREFIX : String := "⚠️  STDERR: "

/-- One iteration of the `read_stream` loop body for a raw line
(deploy_tui.py lines 244-257): decode, strip trailing `"\n\r"`, skip
the line if empty, otherwise deliver `f"{prefix}{line}"` to the
consumer (`log.write_line`). -/
def processLine (pre : String) (b : ByteLine) : Option String :=
  let line := rstripNR (decodeLine b)
  if line = "" then none else some (pre ++ line)

/-- The function `read_stream(stream, prefix)` (deploy_tui.py lines 236-257) on the
full sequence of raw lines the stream yields before end-of-input: the
list of texts delivered to the consumer, in stream order. -/
def readStream (pre : String) (stream : List ByteLine) : List String :=
  stream.filterMap (processLine pre)

/-- Python's `sys.platform.startswith("win")`: does the platform
string begin with `"win"`?  (Stated on the character lists so that it
evaluates by kernel reduction.) -/
def startsWithWin (platform : String) : Bool :=
  List.isPrefixOf "win".data platform.data

/-! Section: the `stdbuf` probe and command wrapping (deploy_tui.py 201-220)

On non-Windows platforms the code runs
`subprocess.run(["which", "stdbuf"], capture_output=True, timeout=1,
check=False)` inside `try ... except (TimeoutExpired,
FileNotFoundError): pass`, and prepends `["stdbuf", "-o0", "-e0"]` to
the command when no exception escapes the `subprocess.run` call.  With
`check=False` a completed probe never raises, whatever its return code,
so the outcome of the probe is one of the three constructors below. -/

/-- The outcome of `subprocess.run(["which", "stdbuf"], ..., timeout=1,
check=False)`: the probe completed with some return code (0 when `which`
found `stdbuf`, non-zero when it did not — `check=False` raises in
neither case), or `which` itself was missing (`FileNotFoundError`), or
the probe timed out (`TimeoutExpired`). -/
inductive ProbeOutcome where
  | completed (returncode : Int)
  | whichMissing
  | timedOut
deriving DecidableEq, Repr

/-- The command-construction logic of deploy_tui.py lines 206-220
applied to the base command of line 204: on a platform whose
`sys.platform` starts with `"win"` the command is untouched; otherwise
`["stdbuf", "-o0", "-e0"]` is prepended exactly when the probe neither
raised `FileNotFoundError` nor `TimeoutExpired` (a completed probe
falls through to the prepend regardless of its return code, because
`check=False` suppresses `CalledProcessError`). -/
def stdbufWrap (platform : String) (probe : ProbeOutcome)
    (command : List String) : List String :=
  if startsWithWin platform then command
  else
    match probe with
    | ProbeOutcome.completed _ => ["stdbuf", "-o0", "-e0"] ++ command
    | ProbeOutcome.whichMissing => command
    | ProbeOutcome.timedOut => command

/-! Section: environment building (deploy_tui.py lines 156-199) -/

/-- An environment mapping, insertion-ordered like a Python `dict`
(`os.environ` and its copies). -/
abbrev EnvMap : Type := List (String × String)

/-- Assignment `d[k] = v` on a Python dict: update the value in place when the key
is present, append the new binding otherwise. -/
def envSet (m : EnvMap) (k v : String) : EnvMap :=
  if m.any (fun kv => kv.1 == k) then
    m.map (fun kv => if kv.1 == k then (k, v) else kv)
  else m ++ [(k, v)]

/-- Lookup `d[k]` / membership `k in d` on a Python dict, as an optional lookup. -/
def envGet (m : EnvMap) (k : String) : Option String :=
  m.lookup k

/-- Python's `needle in haystack` on strings: substring containment. -/
def containsStr (haystack needle : String) : Bool :=
  decide (List.IsInfix needle.data haystack.data)

/-- The body of the `for path in common_paths` loop (deploy_tui.py
lines 193-196): expand the entry, and prepend it to the PATH value as
`f"{expanded_path};{windows_path}"` when it exists on disk and is not
already a substring of the current PATH value.  `fsExists` models
`os.path.exists` and `expand` models `os.path.expandvars`. -/
def augmentStep (fsExists : String → Bool) (expand : String → String)
    (windows_path p : String) : String :=
  let expanded_path := expand p
  if fsExists expanded_path && !(containsStr windows_path expanded_path) then
    expanded_path ++ ";" ++ windows_path
  else windows_path

/-- The whole `for path in common_paths` loop: fold `augmentStep` over
the fixed directory list, in list order, starting from the incoming
PATH value. -/
def augmentPath (fsExists : String → Bool) (expand : String → String)
    (windows_path : String) (paths : List String) : String :=
  paths.foldl (augmentStep fsExists expand) windows_path

/-- The fixed augmentation list `common_paths` (deploy_tui.py lines
182-190).  The last two entries are stored after an
`os.path.expandvars` pass in the source; here the list holds the
literal text and the `expand` parameter of `buildEnv` is applied where
the source applies `os.path.expandvars`. -/
def common_paths : List String :=
  [ "C:\\Program Files\\Azure CLI\\wbin",
    "C:\\Program Files (x86)\\Azure CLI\\wbin",
    "C:\\Program Files\\nodejs",
    "C:\\Program Files\\Docker\\Docker\\resources\\bin",
    "%USERPROFILE%\\AppData\\Local\\Programs\\Microsoft VS Code\\bin",
    "%USERPROFILE%\\.stripe" ]

/-- The nodejs entry of `common_paths` (deploy_tui.py line 185). -/
def NODEJS_DIR : String := "C:\\Program Files\\nodejs"

/-- The environment-building block of `run_validation` (deploy_tui.py
lines 156-199).  `hostEnv` is the `os.environ` snapshot; the result
pairs the host environment (which the code never writes to — every
assignment targets the `env = os.environ.copy()` dictionary) with the
child environment handed to `asyncio.create_subprocess_exec`.
`platform` models `sys.platform`, `fsExists` models `os.path.exists`,
and `expand` models `os.path.expandvars`. -/
def buildEnv (platform : String) (fsExists : String → Bool)
    (expand : String → String) (hostEnv : EnvMap) : EnvMap × EnvMap :=
  let env := hostEnv
  let env := envSet env "PYTHONUNBUFFERED" "1"
  if startsWithWin platform then
    let env := envSet env "PYTHONIOENCODING" "utf-8"
    match envGet env "PATH" with
    | some windows_path =>
      let env := envSet env "ORIGINAL_PATH" windows_path
      let windows_path :=
        augmentPath fsExists expand windows_path
          (common_paths.take 4 ++ (common_paths.drop 4).map expand)
      (hostEnv, envSet env "PATH" windows_path)
    | none => (hostEnv, env)
  else (hostEnv, env)

/-! Section: the run itself (deploy_tui.py lines 147-300)

The interactions of `run_validation` with the operating system are
modelled as explicit inputs: whether the script path exists
(`script_path.exists()`, line 152), and what the launch-and-run of the
child process produced — either a terminated process (exit code plus
the raw lines each stream yielded) or one of the exceptions the
`try` block catches (lines 281-300). -/

/-- What `asyncio.create_subprocess_exec` + stream reading + `wait`
produced: a terminated child (exit code and the raw byte lines of each
stream), or one of the caught exceptions — `FileNotFoundError` (the
`bash` executable cannot be located), `PermissionError`, or another
`OSError`/`RuntimeError`/`ValueError` carrying its type name, message
and formatted traceback lines. -/
inductive LaunchOutcome where
  | ok (exitCode : Int) (stdoutLines stderrLines : List ByteLine)
  | fileNotFound
  | permissionDenied
  | otherError (typeName msg : String) (traceback : List String)
deriving DecidableEq, Repr

/-- What a run reports to the consumer after the diagnostics header.
Modelled from the spec: the `ERR_*` and `MSG_*` string constants live
in the `constants` package, which is not under `src/`, so each report
is abstracted to a constructor carrying exactly the dynamic data the
source formats into the message.
`scriptNotFound path` stands for `ERR_SCRIPT_NOT_FOUND.format(script_path)`;
`completed out err status` for a normal run that delivered the stdout
and stderr line lists and wrote the classification message;
`interpreterNotFound` for `ERR_BASH_NOT_FOUND` followed by
`ERR_BASH_HINT` (the remediation hint);
`permissionDenied path` for `ERR_PERMISSION_DENIED` followed by
`ERR_PERMISSION_HINT.format(script_path)`; and
`unexpected name msg trace` for `ERR_UNEXPECTED.format(type(e).__name__)`,
`str(e)`, and the non-blank lines of `traceback.format_exc()`. -/
inductive RunReport where
  | scriptNotFound (path : String)
  | completed (stdoutOut stderrOut : List String) (status : StatusMsg)
  | interpreterNotFound
  | permissionDenied (path : String)
  | unexpected (typeName msg : String) (trace : List String)
deriving DecidableEq, Repr

/-- A whitespace character for Python's `str.strip()` with no
arguments (space, tab, newline, carriage return, vertical tab, form
feed). -/
def isPySpace (c : Char) : Bool :=
  c == ' ' || c == '\t' || c == '\n' || c == '\r' || c == '\x0b' || c == '\x0c'

/-- Python's `str.strip()`: remove leading and trailing whitespace. -/
def pyStrip (s : String) : String :=
  String.mk (((s.data.dropWhile isPySpace).reverse.dropWhile isPySpace).reverse)

/-- The method `run_validation` (deploy_tui.py lines 147-300), abstracted over the
operating-system interactions.  The result pairs the number of child
processes spawned for the run with the report delivered to the
consumer.  The existence check on `script_path` (line 152) precedes any
launch attempt: when it fails, the function returns before the `try`
block, so the launch outcome is never consulted and no process is
spawned.  On a normal termination the two streams' deliveries are the
`readStream` outputs and the classification message is `classify` of
the exit code (lines 262-279); each caught exception produces its
specific report instead (lines 281-300), with `unexpected` keeping only
the non-blank traceback lines (`if line.strip()`). -/
def run_validation (scriptExists : Bool) (script_path : String)
    (launch : LaunchOutcome) : Nat × RunReport :=
  if !scriptExists then (0, RunReport.scriptNotFound script_path)
  else
    match launch with
    | LaunchOutcome.ok code out err =>
      (1, RunReport.completed (readStream "" out)
            (readStream STDERR_PREFIX err) (classify code))
    | LaunchOutcome.fileNotFound => (1, RunReport.interpreterNotFound)
    | LaunchOutcome.permissionDenied =>
      (1, RunReport.permissionDenied script_path)
    | LaunchOutcome.otherError name msg tb =>
      (1, RunReport.unexpected name msg
            (tb.filter (fun line => !(pyStrip line == ""))))

/-! Section: counting substring occurrences.

Measuring device for the no-duplication property of the PATH
augmentation: the number of start positions at which a needle occurs in
a haystack. -/

/-- Number of positions of `hay` (including the end position) at which
`needle` occurs as a contiguous substring. -/
def countOcc : List Char → List Char → Nat
  | [], needle => if needle.isPrefixOf ([] : List Char) then 1 else 0
  | c :: t, needle =>
    (if needle.isPrefixOf (c :: t) then 1 else 0) + countOcc t needle

/-- Substring-occurrence count on strings. -/
def countOccStr (hay needle : String) : Nat :=
  countOcc hay.data needle.data

/-! Section: helper lemmas. -/

/-- A nonempty needle that is not an infix occurs zero times. -/
theorem countOcc_eq_zero_of_absent {d : List Char} (hne : d ≠ [])
    {P : List Char} (h : ¬ d <:+: P) : countOcc P d = 0 := by
  induction P with
  | nil =>
    have hp : ¬ d <+: ([] : List Char) := by
      intro hb
      exact hne (List.prefix_nil.mp hb)
    simp [countOcc, hp]
  | cons c t ih =>
    rw [List.infix_cons_iff] at h
    push_neg at h
    simp [countOcc, h.1, ih h.2]

/-- A needle without separator characters that starts as a prefix of
`s ++ ';' :: P` while being longer than `s` would have to contain the
separator. -/
theorem sep_mem_of_overlap {d s P : List Char} (hlen : s.length < d.length)
    (hp : d <+: s ++ ';' :: P) : (';' : Char) ∈ d := by
  have hs : s <+: s ++ ';' :: P := List.prefix_append s _
  rcases List.prefix_or_prefix_of_prefix hp hs with hds | hsd
  · exact absurd hds.length_le (by omega)
  · obtain ⟨t, rfl⟩ := hsd
    rw [List.prefix_append_right_inj] at hp
    cases t with
    | nil => simp at hlen
    | cons x t' =>
      rw [List.cons_prefix_cons] at hp
      refine List.mem_append.mpr (Or.inr ?_)
      rw [← hp.1]
      exact List.mem_cons_self x t'

/-- For a separator-free nonempty needle `d` not occurring in `P`, no
occurrence of `d` starts inside a block `s` shorter than `d` followed
by `';' :: P`. -/
theorem countOcc_short_block {d P : List Char} (hsep : (';' : Char) ∉ d)
    (hne : d ≠ []) (hinf : ¬ d <:+: P) :
    ∀ s : List Char, s.length < d.length → countOcc (s ++ ';' :: P) d = 0 := by
  intro s
  induction s with
  | nil =>
    intro _
    have hp : ¬ d <+: (';' :: P) := by
      intro hb
      cases d with
      | nil => exact hne rfl
      | cons x d' =>
        rw [List.cons_prefix_cons] at hb
        refine hsep ?_
        rw [hb.1]
        exact List.mem_cons_self ';' d'
    have h0 : countOcc P d = 0 := countOcc_eq_zero_of_absent hne hinf
    simp [countOcc, hp, h0]
  | cons c s' ih =>
    intro hlen
    have hp : ¬ d <+: c :: (s' ++ ';' :: P) := by
      intro hb
      exact hsep (sep_mem_of_overlap (s := c :: s') hlen hb)
    have hrec : countOcc (s' ++ ';' :: P) d = 0 := by
      refine ih ?_
      simp only [List.length_cons] at hlen
      omega
    simp [countOcc, hp, hrec]

/-- Prepending a separator-free needle in front of `';' :: P`, with the
needle absent from `P`, makes it occur exactly once. -/
theorem countOcc_self_block {d P : List Char} (hsep : (';' : Char) ∉ d)
    (hne : d ≠ []) (hinf : ¬ d <:+: P) :
    countOcc (d ++ ';' :: P) d = 1 := by
  cases d with
  | nil => exact absurd rfl hne
  | cons c d' =>
    have hp : (c :: d') <+: ((c :: d') ++ ';' :: P) := List.prefix_append _ _
    have hrec : countOcc (d' ++ ';' :: P) (c :: d') = 0 := by
      refine countOcc_short_block hsep hne hinf d' ?_
      simp only [List.length_cons]
      omega
    simp [countOcc, List.cons_append, hp, hrec]

/-- Appending to the empty string is the identity. -/
theorem string_empty_append (s : String) : "" ++ s = s := by
  apply String.ext
  simp [String.data_append]

/-! Section: the claims. -/

/-- C1: For every terminated child process, the run's classification is
determined solely by the exit code — the completed report carries
`classify` of the exit code, and `classify` maps 0 to the success
message, 1 to the warnings message, and any other code to the failure
message carrying that numeric code. -/
theorem exit_code_classification (path : String) (out err : List ByteLine) :
    (∀ code : Int,
      (run_validation true path (LaunchOutcome.ok code out err)).2 =
        RunReport.completed (readStream "" out) (readStream STDERR_PREFIX err)
          (classify code)) ∧
    classify 0 = StatusMsg.success ∧
    classify 1 = StatusMsg.warnings ∧
    (∀ code : Int, code ≠ 0 → code ≠ 1 →
      classify code = StatusMsg.failed code) := by
  refine ⟨fun code => rfl, by decide, by decide, fun code h0 h1 => ?_⟩
  simp [classify, EXIT_CODE_SUCCESS, EXIT_CODE_WARNINGS, h0, h1]

/-- Witness for `exit_code_classification` at exit codes 0, 1 and 2. -/
theorem exit_code_classification_witness :
    classify 0 = StatusMsg.success ∧ classify 1 = StatusMsg.warnings ∧
    classify 2 = StatusMsg.failed 2 :=
  ⟨(exit_code_classification "p" [] []).2.1,
   (exit_code_classification "p" [] []).2.2.1,
   (exit_code_classification "p" [] []).2.2.2 2 (by decide) (by decide)⟩

/-- C5: when the script path does not exist, the consumer receives the
script-not-found report naming the path, zero child processes are
spawned, and the result does not depend on any launch outcome — the
existence check precedes any launch attempt. -/
theorem script_not_found_no_spawn (path : String)
    (launch launch' : LaunchOutcome) :
    run_validation false path launch = (0, RunReport.scriptNotFound path) ∧
    (run_validation false path launch).1 = 0 ∧
    run_validation false path launch = run_validation false path launch' :=
  ⟨rfl, rfl, rfl⟩

/-- C7: every launch/IO failure is terminal and produces its own
distinguishable report — interpreter-not-found (the constructor
standing for `ERR_BASH_NOT_FOUND` plus the `ERR_BASH_HINT` remediation
hint), permission-denied naming the script path, or unexpected-error
carrying the error's type name, its message and the non-blank traceback
lines — and in all three cases the report is never the completed report
that carries a success/warning/failure classification message. -/
theorem launch_errors_terminal (path name msg : String) (tb : List String) :
    run_validation true path LaunchOutcome.fileNotFound =
      (1, RunReport.interpreterNotFound) ∧
    run_validation true path LaunchOutcome.permissionDenied =
      (1, RunReport.permissionDenied path) ∧
    run_validation true path (LaunchOutcome.otherError name msg tb) =
      (1, RunReport.unexpected name msg
            (tb.filter (fun line => !(pyStrip line == "")))) ∧
    (∀ o e st, (run_validation true path LaunchOutcome.fileNotFound).2 ≠
      RunReport.completed o e st) ∧
    (∀ o e st, (run_validation true path LaunchOutcome.permissionDenied).2 ≠
      RunReport.completed o e st) ∧
    (∀ o e st,
      (run_validation true path (LaunchOutcome.otherError name msg tb)).2 ≠
        RunReport.completed o e st) := by
  refine ⟨rfl, rfl, rfl, ?_, ?_, ?_⟩ <;>
    exact fun o e st h => RunReport.noConfusion h

/-- C10: building the run environment never mutates the host process's
own environment mapping: for every platform, filesystem predicate,
variable expansion and host snapshot, the host side of `buildEnv` is
exactly the snapshot it started from. -/
theorem buildEnv_host_unchanged (platform : String)
    (fsExists : String → Bool) (expand : String → String)
    (hostEnv : EnvMap) :
    (buildEnv platform fsExists expand hostEnv).1 = hostEnv := by
  cases hwin : startsWithWin platform with
  | true =>
    cases hpath : envGet (envSet (envSet hostEnv "PYTHONUNBUFFERED" "1")
        "PYTHONIOENCODING" "utf-8") "PATH" with
    | some wp => simp [buildEnv, hwin, hpath]
    | none => simp [buildEnv, hwin, hpath]
  | false => simp [buildEnv, hwin]

/-- C3 evaluation at the failing input: on a non-Windows platform where
the probe completed with return code 1 — `which` ran and reported
`stdbuf` absent — the code still prepends `stdbuf` and its flags
(`check=False` suppresses the only signal of absence), so the command
is not left unchanged. -/
theorem stdbuf_prepended_despite_absent :
    stdbufWrap "linux" (ProbeOutcome.completed 1) ["bash", "script.sh"] =
      ["stdbuf", "-o0", "-e0", "bash", "script.sh"] ∧
    stdbufWrap "linux" (ProbeOutcome.completed 1) ["bash", "script.sh"] ≠
      ["bash", "script.sh"] := by
  constructor
  · decide
  · decide

/-- On a stream whose lines are all non-blank after stripping,
`read_stream` delivers exactly one prefixed line per raw line. -/
theorem readStream_all_nonblank (pre : String) (l : List ByteLine) :
    (∀ b ∈ l, rstripNR (decodeLine b) ≠ "") →
      readStream pre l = l.map (fun b => pre ++ rstripNR (decodeLine b)) := by
  induction l with
  | nil => intro _; rfl
  | cons b t ih =>
    intro h
    have hb : rstripNR (decodeLine b) ≠ "" := h b (List.mem_cons_self b t)
    have ht := ih (fun x hx => h x (List.mem_cons_of_mem b hx))
    simp [readStream, List.filterMap_cons, processLine, hb] at ht ⊢
    exact ht

/-- C2: for a child process whose stdout stream yields the raw lines
`out` and whose stderr stream yields `err`, all non-blank after
terminator stripping, the consumer's line callback fires exactly
`out.length + err.length` times; every stdout delivery is the decoded
line with its terminator stripped and no prefix, and every stderr
delivery is the stripped decoded line behind the stderr marker. -/
theorem stream_line_delivery (out err : List ByteLine)
    (hout : ∀ b ∈ out, rstripNR (decodeLine b) ≠ "")
    (herr : ∀ b ∈ err, rstripNR (decodeLine b) ≠ "") :
    readStream "" out = out.map (fun b => rstripNR (decodeLine b)) ∧
    readStream STDERR_PREFIX err =
      err.map (fun b => STDERR_PREFIX ++ rstripNR (decodeLine b)) ∧
    (readStream "" out).length + (readStream STDERR_PREFIX err).length =
      out.length + err.length := by
  have h1 := readStream_all_nonblank "" out hout
  have h2 := readStream_all_nonblank STDERR_PREFIX err herr
  refine ⟨?_, h2, ?_⟩
  · rw [h1]
    simp [string_empty_append]
  · rw [h1, h2]
    simp

/-- Witness for `stream_line_delivery` on concrete one-line streams
(`"hi\n"` on stdout, `"e\n"` on stderr). -/
theorem stream_line_delivery_witness :
    readStream "" [[104, 105, 10]] =
      ([[104, 105, 10]] : List ByteLine).map
        (fun b => rstripNR (decodeLine b)) ∧
    readStream STDERR_PREFIX [[101, 10]] =
      ([[101, 10]] : List ByteLine).map
        (fun b => STDERR_PREFIX ++ rstripNR (decodeLine b)) ∧
    (readStream "" [[104, 105, 10]]).length +
        (readStream STDERR_PREFIX [[101, 10]]).length = 2 :=
  stream_line_delivery [[104, 105, 10]] [[101, 10]] (by decide) (by decide)

/-- C8: blank lines are never delivered, for any mix of blank and
non-blank input: the consumer output equals the output on the stream
with all blank lines removed, and a line that is empty after stripping
produces no delivery at all. -/
theorem blank_lines_suppressed (pre : String) (stream : List ByteLine) :
    readStream pre stream =
      readStream pre
        (stream.filter (fun b => !(rstripNR (decodeLine b) == ""))) ∧
    (∀ b : ByteLine, rstripNR (decodeLine b) = "" →
      processLine pre b = none) := by
  constructor
  · induction stream with
    | nil => rfl
    | cons b t ih =>
      by_cases hb : rstripNR (decodeLine b) = ""
      · have hpb : processLine pre b = none := by simp [processLine, hb]
        simp [readStream, List.filter_cons, List.filterMap_cons, hb, hpb] at ih ⊢
        exact ih
      · have hpb : processLine pre b = some (pre ++ rstripNR (decodeLine b)) := by
          simp [processLine, hb]
        simp [readStream, List.filter_cons, List.filterMap_cons, hb, hpb] at ih ⊢
        exact ih
  · intro b hb
    simp [processLine, hb]

/-- Witness for `blank_lines_suppressed`: a lone `"\r\n"` terminator
line is suppressed. -/
theorem blank_lines_suppressed_witness :
    processLine "" [13, 10] = none :=
  (blank_lines_suppressed "" []).2 [13, 10] (by decide)

/-- A byte line rejected by strict decoding decodes under replacement
decoding to a text containing the replacement character. -/
theorem replacement_mem_of_strict_none {b : List Nat}
    (h : utf8DecodeStrict b = none) :
    replacementChar ∈ (utf8DecodeReplace b).data := by
  unfold utf8DecodeStrict at h
  by_cases hc : (utf8DecodeTokens b).any (fun t => match t with
      | Sum.inl _ => false
      | Sum.inr _ => true) = true
  · rw [List.any_eq_true] at hc
    obtain ⟨t, ht, hterr⟩ := hc
    cases t with
    | inl c => simp at hterr
    | inr u =>
      unfold utf8DecodeReplace
      exact List.mem_map.mpr ⟨Sum.inr u, ht, rfl⟩
  · simp [hc] at h

/-- C6: a line whose byte sequence is malformed under the configured
encoding does not abort the run: the decode falls back to replacement
decoding, the replacement marker appears in the decoded text, the rest
of the stream is still processed, and the decoded line is delivered
whenever it is non-blank after stripping. -/
theorem malformed_line_replaced (b : ByteLine) (pre : String)
    (rest : List ByteLine) (hmal : utf8DecodeStrict b = none) :
    decodeLine b = utf8DecodeReplace b ∧
    replacementChar ∈ (decodeLine b).data ∧
    readStream pre (b :: rest) =
      (processLine pre b).toList ++ readStream pre rest ∧
    (rstripNR (decodeLine b) ≠ "" →
      processLine pre b = some (pre ++ rstripNR (decodeLine b))) := by
  have hdec : decodeLine b = utf8DecodeReplace b := by
    unfold decodeLine
    rw [hmal]
  refine ⟨hdec, ?_, ?_, ?_⟩
  · rw [hdec]
    exact replacement_mem_of_strict_none hmal
  · cases hpb : processLine pre b with
    | none => simp [readStream, List.filterMap_cons, hpb]
    | some s => simp [readStream, List.filterMap_cons, hpb]
  · intro hne
    simp [processLine, hne]

/-- Witness for `malformed_line_replaced` at the malformed byte line
`FF 68 69 0A`. -/
theorem malformed_line_replaced_witness :
    utf8DecodeStrict [0xFF, 104, 105, 10] = none ∧
    decodeLine [0xFF, 104, 105, 10] = utf8DecodeReplace [0xFF, 104, 105, 10] ∧
    processLine "" [0xFF, 104, 105, 10] =
      some ("" ++ rstripNR (decodeLine [0xFF, 104, 105, 10])) := by
  have h := malformed_line_replaced [0xFF, 104, 105, 10] "" [] (by decide)
  exact ⟨by decide, h.1, h.2.2.2 (by decide)⟩

/-- C9: PATH augmentation by the nodejs directory is duplication-free.
If the starting PATH value lacks the directory and it exists on disk,
the resulting PATH is the directory prepended and contains it exactly
once; if the directory is already a substring of PATH, the step returns
PATH unchanged (so its occurrences are untouched). -/
theorem nodejs_augment_no_duplication (P : String) (fsExists : String → Bool)
    (expand : String → String) (hexp : expand NODEJS_DIR = NODEJS_DIR) :
    (fsExists NODEJS_DIR = true → containsStr P NODEJS_DIR = false →
      augmentStep fsExists expand P NODEJS_DIR = NODEJS_DIR ++ ";" ++ P ∧
      countOccStr (augmentStep fsExists expand P NODEJS_DIR) NODEJS_DIR = 1) ∧
    (containsStr P NODEJS_DIR = true →
      augmentStep fsExists expand P NODEJS_DIR = P) := by
  constructor
  · intro hex hnc
    have heq : augmentStep fsExists expand P NODEJS_DIR =
        NODEJS_DIR ++ ";" ++ P := by
      simp [augmentStep, hexp, hex, hnc]
    refine ⟨heq, ?_⟩
    rw [heq]
    unfold countOccStr
    have hdata : (NODEJS_DIR ++ ";" ++ P).data =
        NODEJS_DIR.data ++ ';' :: P.data := by
      simp [String.data_append]
    rw [hdata]
    apply countOcc_self_block
    · decide
    · decide
    · intro hinf
      have hc : containsStr P NODEJS_DIR = true := decide_eq_true hinf
      rw [hnc] at hc
      exact Bool.noConfusion hc
  · intro hc
    simp [augmentStep, hexp, hc]

/-- Witness for `nodejs_augment_no_duplication` at a PATH lacking the
nodejs directory and at a PATH already containing it. -/
theorem nodejs_augment_no_duplication_witness :
    (augmentStep (fun _ => true) id "C:\x5cWindows" NODEJS_DIR =
       NODEJS_DIR ++ ";" ++ "C:\x5cWindows" ∧
     countOccStr (augmentStep (fun _ => true) id "C:\x5cWindows" NODEJS_DIR)
       NODEJS_DIR = 1) ∧
    augmentStep (fun _ => true) id (NODEJS_DIR ++ ";C:\x5cWindows")
      NODEJS_DIR = NODEJS_DIR ++ ";C:\x5cWindows" := by
  constructor
  · exact (nodejs_augment_no_duplication "C:\x5cWindows" (fun _ => true) id
      rfl).1 rfl (by decide)
  · exact (nodejs_augment_no_duplication (NODEJS_DIR ++ ";C:\x5cWindows")
      (fun _ => true) id rfl).2 (by decide)

/-- C4 counterexample: with only the first (Azure CLI) and third
(nodejs) entries of the fixed list existing on disk and a starting
`PATH = C:\Windows`, a Windows run produces a PATH whose front is the
later entry (nodejs), while the earlier entry (Azure CLI) sits behind
it — so directories appearing earlier in the fixed list do not end up
closer to the front. -/
theorem augment_order_counterexample :
    envGet (buildEnv "win32"
        (fun s => s == "C:\x5cProgram Files\x5cAzure CLI\x5cwbin" ||
                  s == "C:\x5cProgram Files\x5cnodejs")
        id [("PATH", "C:\x5cWindows")]).2 "PATH" =
      some ("C:\x5cProgram Files\x5cnodejs;C:\x5cProgram Files\x5cAzure CLI\x5cwbin;C:\x5cWindows") ∧
    List.IsPrefix ("C:\x5cProgram Files\x5cnodejs").data
      ("C:\x5cProgram Files\x5cnodejs;C:\x5cProgram Files\x5cAzure CLI\x5cwbin;C:\x5cWindows").data ∧
    ¬ List.IsPrefix ("C:\x5cProgram Files\x5cAzure CLI\x5cwbin").data
      ("C:\x5cProgram Files\x5cnodejs;C:\x5cProgram Files\x5cAzure CLI\x5cwbin;C:\x5cWindows").data := by
  refine ⟨by decide, by decide, by decide⟩

/-- C4 as amended: the prepending follows the fixed list order, and a
directory processed later ends up closer to the front of the resulting
PATH than one processed earlier — prepending reverses the list order in
the final value. -/
theorem augment_order_later_in_front (fsExists : String → Bool)
    (expand : String → String) (P d1 d2 : String)
    (h1e : fsExists (expand d1) = true)
    (h1c : containsStr P (expand d1) = false)
    (h2e : fsExists (expand d2) = true)
    (h2c : containsStr (expand d1 ++ ";" ++ P) (expand d2) = false) :
    augmentPath fsExists expand P [d1, d2] =
      expand d2 ++ ";" ++ (expand d1 ++ ";" ++ P) := by
  unfold augmentPath
  simp [List.foldl, augmentStep, h1e, h1c, h2e, h2c]

/-- Witness for `augment_order_later_in_front` on concrete directories
`A` then `B` over the starting PATH `P0`. -/
theorem augment_order_later_in_front_witness :
    augmentPath (fun _ => true) id "P0" ["A", "B"] =
      "B" ++ ";" ++ ("A" ++ ";" ++ "P0") :=
  augment_order_later_in_front (fun _ => true) id "P0" "A" "B" rfl
    (by decide) rfl (by decide)

/-- Witness for `script_not_found_no_spawn` at a concrete path and
launch outcome. -/
theorem script_not_found_no_spawn_witness :
    run_validation false "missing.sh" LaunchOutcome.fileNotFound =
      (0, RunReport.scriptNotFound "missing.sh") :=
  (script_not_found_no_spawn "missing.sh" LaunchOutcome.fileNotFound
    LaunchOutcome.permissionDenied).1

/-- Witness for `launch_errors_terminal` at concrete report data. -/
theorem launch_errors_terminal_witness :
    run_validation true "s.sh" LaunchOutcome.fileNotFound =
      (1, RunReport.interpreterNotFound) ∧
    (run_validation true "s.sh"
      (LaunchOutcome.otherError "ValueError" "boom" ["tb line", " "])).2 =
      RunReport.unexpected "ValueError" "boom" ["tb line"] := by
  have h := launch_errors_terminal "s.sh" "ValueError" "boom" ["tb line", " "]
  refine ⟨h.1, ?_⟩
  rw [h.2.2.1]
  decide

/-- Witness for `buildEnv_host_unchanged` at a concrete host
environment. -/
theorem buildEnv_host_unchanged_witness :
    (buildEnv "linux" (fun _ => true) id [("PATH", "/usr/bin")]).1 =
      [("PATH", "/usr/bin")] :=
  buildEnv_host_unchanged "linux" (fun _ => true) id [("PATH", "/usr/bin")]

end DeployTui
